import Mathlib

/-!
Shallow embedding of the quiz-app question/answer/session core
(`src/js/Question.js`, `src/js/UserAnswer.js`, and the `Quiz` class),
with theorems checking the specified properties of question-bank sync,
answer evaluation, answer-history accumulation, progress derivation,
cursor movement and restart.

Conventions of the embedding:
* JS numbers carrying ids/counters are `Nat`; scores and grades are `Rat`
  (exact arithmetic standing in for JS double arithmetic).
* A JS `undefined` optional field is `Option.none`; JS falsy defaults
  (`x || d`) are translated explicitly at each use site.
* The IndexedDB object stores are association lists; `put` upserts by key
  (insertion kept sorted by key for the question store, mirroring the key
  order of IndexedDB `getAll`).
* Asynchronous effects (fetch of the remote evaluation API, storage
  success/failure) are supplied as explicit parameters in `Env`.
-/

/-- One question record.  Fields mirror the `Question` constructor of
`src/js/Question.js`; absent JSON fields are the zero values (`0`, `""`,
`[]`), matching the JS falsy defaults applied by the constructor. -/
structure Question where
  id : Nat
  question : String := ""
  type : String := ""
  hints : List String := []
  version : Nat := 0
  expectedAnswer : String := ""
  labels : List String := []
  options : List String := []
  keywords : List String := []
  minKeywords : Nat := 0
  maxLength : Nat := 0
  deriving Repr, DecidableEq

/-- The normalisation performed by the `Question` constructor
(`fromJSON`): `version || 1`, and the type-specific fields are kept only
for the matching type (on the JS object the others are simply absent,
modelled as the zero values). -/
def Question.fromJSON (d : Question) : Question :=
  { d with
    version := if d.version = 0 then 1 else d.version,
    options := if d.type = "objective" then d.options else [],
    keywords := if d.type = "subjective" then d.keywords else [],
    minKeywords := if d.type = "subjective" then d.minKeywords else 0,
    maxLength := if d.type = "subjective" then d.maxLength else 0 }

/-- Lookup by primary key in the questions object store
(`Storage.getById`). -/
def storeGet : List Question → Nat → Option Question
  | [], _ => none
  | q :: rest, i => if q.id = i then some q else storeGet rest i

/-- Upsert by primary key into the questions object store
(`store.put`); insertion keeps the store in IndexedDB key order. -/
def storePut : List Question → Question → List Question
  | [], q => [q]
  | x :: xs, q =>
    if q.id < x.id then q :: x :: xs
    else if q.id = x.id then q :: xs
    else x :: storePut xs q

/-- `Question.getAll`: reads the whole store and rebuilds `Question`
instances via the constructor. -/
def Question.getAll (s : List Question) : List Question :=
  s.map Question.fromJSON

/-- One iteration of the `Question.sync` loop: the remote version is
compared against the snapshot `localMap` of the bank taken before the
loop, and the remote copy is saved when the local one is absent or
older. -/
def syncStep (localMap st : List Question) (rq : Question) : List Question :=
  match storeGet localMap rq.id with
  | none => storePut st (Question.fromJSON rq)
  | some lq =>
    if lq.version < rq.version then storePut st (Question.fromJSON rq) else st

/-- The loop of `Question.sync`, iterating `syncStep` over the remote
list. -/
def syncLoop (localMap st : List Question) :
    List Question → List Question
  | [] => st
  | rq :: rest => syncLoop localMap (syncStep localMap st rq) rest

/-- `Question.sync(remoteQuestions)` of `src/js/Question.js`: merges the
remote list into the bank and returns (final store, value returned to the
caller, which is `getAll` of the final store). -/
def Question.sync (store remote : List Question) :
    List Question × List Question :=
  let localQuestions := Question.getAll store
  let final := syncLoop localQuestions store remote
  (final, Question.getAll final)

-- Store lemmas -------------------------------------------------------------

theorem Question.fromJSON_id (d : Question) : (Question.fromJSON d).id = d.id := rfl

theorem storeGet_storePut (s : List Question) (q : Question) (i : Nat) :
    storeGet (storePut s q) i = if q.id = i then some q else storeGet s i := by
  induction s with
  | nil =>
    by_cases h : q.id = i <;> simp [storeGet, storePut, h]
  | cons x xs ih =>
    by_cases h1 : q.id < x.id
    · simp only [storePut, if_pos h1]
      by_cases h : q.id = i <;> simp [storeGet, h]
    · by_cases h2 : q.id = x.id
      · simp only [storePut, if_neg h1, if_pos h2]
        by_cases h : q.id = i
        · simp [storeGet, h]
        · have hx : ¬ x.id = i := by omega
          simp [storeGet, h, hx]
      · simp only [storePut, if_neg h1, if_neg h2]
        by_cases hx : x.id = i
        · have h : ¬ q.id = i := by omega
          simp [storeGet, h, hx]
        · simp [storeGet, hx, ih]

theorem syncStep_get_ne (m st : List Question) (a : Question) (i : Nat)
    (ha : a.id ≠ i) :
    storeGet (syncStep m st a) i = storeGet st i := by
  unfold syncStep
  cases hm : storeGet m a.id with
  | none =>
    simp [storeGet_storePut, Question.fromJSON_id, ha]
  | some lq =>
    by_cases hv : lq.version < a.version
    · simp [if_pos hv, storeGet_storePut, Question.fromJSON_id, ha]
    · simp only [if_neg hv]

theorem syncStep_get_self_absent (m st : List Question) (a : Question)
    (hm : storeGet m a.id = none) :
    storeGet (syncStep m st a) a.id = some (Question.fromJSON a) := by
  unfold syncStep
  simp [hm, storeGet_storePut, Question.fromJSON_id]

theorem syncStep_get_self_newer (m st : List Question) (a : Question) (lq : Question)
    (hm : storeGet m a.id = some lq) (hv : lq.version < a.version) :
    storeGet (syncStep m st a) a.id = some (Question.fromJSON a) := by
  unfold syncStep
  simp [hm, if_pos hv, storeGet_storePut, Question.fromJSON_id]

theorem syncStep_get_self_stale (m st : List Question) (a : Question) (lq : Question)
    (hm : storeGet m a.id = some lq) (hv : ¬ lq.version < a.version) :
    storeGet (syncStep m st a) a.id = storeGet st a.id := by
  unfold syncStep
  simp only [hm, if_neg hv]

theorem syncLoop_unrelated (m st : List Question) (l : List Question) (i : Nat)
    (h : ∀ rq ∈ l, rq.id ≠ i) :
    storeGet (syncLoop m st l) i = storeGet st i := by
  induction l generalizing st with
  | nil => rfl
  | cons a rest ih =>
    have ha : a.id ≠ i := h a (List.mem_cons_self a rest)
    have hrest : ∀ rq ∈ rest, rq.id ≠ i := fun rq hm => h rq (List.mem_cons_of_mem a hm)
    simp only [syncLoop]
    rw [ih _ hrest, syncStep_get_ne _ _ _ _ ha]

/-- Splits the unique remote occurrence of id `i` out of the remote
list: the entries before and after it touch other ids only. -/
theorem filter_singleton_split (l : List Question) (i : Nat) (rq : Question)
    (hu : l.filter (fun q => q.id == i) = [rq]) :
    ∃ pre post, l = pre ++ rq :: post ∧ rq.id = i ∧
      (∀ x ∈ pre, x.id ≠ i) ∧ (∀ x ∈ post, x.id ≠ i) := by
  induction l with
  | nil => simp [List.filter] at hu
  | cons a rest ih =>
    by_cases ha : a.id = i
    · have hfa : (fun q => q.id == i) a = true := by simp [ha]
      have hcons : a :: rest.filter (fun q => q.id == i) = [rq] := by
        simpa [List.filter_cons, hfa] using hu
      have harq : a = rq := by injection hcons
      have hrest : rest.filter (fun q => q.id == i) = [] := by injection hcons
      refine ⟨[], rest, by simp [harq], harq ▸ ha, by simp, ?_⟩
      intro x hx hxi
      have hmem : x ∈ rest.filter (fun q => q.id == i) := by
        simp [List.mem_filter, hx, hxi]
      simp [hrest] at hmem
    · have hfa : (fun q => q.id == i) a = false := by simp [ha]
      have hrest : rest.filter (fun q => q.id == i) = [rq] := by
        simpa [List.filter_cons, hfa] using hu
      obtain ⟨pre, post, hl, hid, hpre, hpost⟩ := ih hrest
      exact ⟨a :: pre, post, by simp [hl], hid, by
        intro x hx
        rcases List.mem_cons.mp hx with h | h
        · exact h ▸ ha
        · exact hpre x h, hpost⟩

theorem syncLoop_append (m st : List Question) (l₁ l₂ : List Question) :
    syncLoop m st (l₁ ++ l₂) = syncLoop m (syncLoop m st l₁) l₂ := by
  induction l₁ generalizing st with
  | nil => rfl
  | cons a rest ih =>
    show syncLoop m (syncStep m st a) (rest ++ l₂) = _
    rw [ih]
    rfl

theorem syncLoop_focus_absent (m : List Question) (i : Nat) (rq : Question)
    (l : List Question) (st : List Question)
    (hu : l.filter (fun q => q.id == i) = [rq])
    (hm : storeGet m i = none) :
    storeGet (syncLoop m st l) i = some (Question.fromJSON rq) := by
  obtain ⟨pre, post, hl, hid, hpre, hpost⟩ := filter_singleton_split l i rq hu
  subst hl
  rw [syncLoop_append]
  simp only [syncLoop]
  rw [syncLoop_unrelated _ _ _ _ hpost]
  have := syncStep_get_self_absent m (syncLoop m st pre) rq (hid ▸ hm)
  rw [hid] at this
  exact this

theorem syncLoop_focus_newer (m : List Question) (i : Nat) (rq lq : Question)
    (l : List Question) (st : List Question)
    (hu : l.filter (fun q => q.id == i) = [rq])
    (hm : storeGet m i = some lq) (hv : lq.version < rq.version) :
    storeGet (syncLoop m st l) i = some (Question.fromJSON rq) := by
  obtain ⟨pre, post, hl, hid, hpre, hpost⟩ := filter_singleton_split l i rq hu
  subst hl
  rw [syncLoop_append]
  simp only [syncLoop]
  rw [syncLoop_unrelated _ _ _ _ hpost]
  have := syncStep_get_self_newer m (syncLoop m st pre) rq lq (hid ▸ hm) hv
  rw [hid] at this
  exact this

theorem syncLoop_focus_stale (m : List Question) (i : Nat) (rq lq : Question)
    (l : List Question) (st : List Question)
    (hu : l.filter (fun q => q.id == i) = [rq])
    (hm : storeGet m i = some lq) (hv : ¬ lq.version < rq.version) :
    storeGet (syncLoop m st l) i = storeGet st i := by
  obtain ⟨pre, post, hl, hid, hpre, hpost⟩ := filter_singleton_split l i rq hu
  subst hl
  rw [syncLoop_append]
  simp only [syncLoop]
  rw [syncLoop_unrelated _ _ _ _ hpost]
  have := syncStep_get_self_stale m (syncLoop m st pre) rq lq (hid ▸ hm) hv
  rw [hid] at this
  rw [this]
  exact syncLoop_unrelated _ _ _ _ hpre

-- C1 -----------------------------------------------------------------------

/-- C1: `Question.sync` is a last-writer-wins merge keyed on version.
For a question id `i` supplied exactly once by the remote list at
version `v2 = rq.version`: if `v2` is greater than the local version
(the version of the local copy, or `0` when the bank has no copy of `i`),
the bank afterwards holds the remote copy, still at `v2`; if the bank
holds a copy whose version is at least `v2`, that copy is untouched; and
the value returned by `sync` is `getAll` of the merged bank.  `hwf`
states that the bank contains constructor-normalised records, which is
an invariant of every store write in the source. -/
theorem sync_last_writer_wins (store remote : List Question) (i : Nat) (rq : Question)
    (hwf : Question.getAll store = store)
    (hu : remote.filter (fun q => q.id == i) = [rq]) :
    ((storeGet store i).elim 0 Question.version < rq.version →
        storeGet (Question.sync store remote).1 i = some (Question.fromJSON rq) ∧
        (Question.fromJSON rq).version = rq.version) ∧
    (∀ lq, storeGet store i = some lq → rq.version ≤ lq.version →
        storeGet (Question.sync store remote).1 i = some lq) ∧
    (Question.sync store remote).2 = Question.getAll (Question.sync store remote).1 := by
  refine ⟨?_, ?_, rfl⟩
  · intro hv
    constructor
    · show storeGet (syncLoop (Question.getAll store) store remote) i = _
      rw [hwf]
      cases hg : storeGet store i with
      | none => exact syncLoop_focus_absent store i rq remote store hu hg
      | some lq =>
        rw [hg] at hv
        simp only [Option.elim] at hv
        exact syncLoop_focus_newer store i rq lq remote store hu hg hv
    · have hne : rq.version ≠ 0 := by
        cases hg : storeGet store i <;> rw [hg] at hv <;>
          simp only [Option.elim] at hv <;> omega
      simp [Question.fromJSON, hne]
  · intro lq hg hle
    show storeGet (syncLoop (Question.getAll store) store remote) i = _
    rw [hwf]
    rw [syncLoop_focus_stale store i rq lq remote store hu hg (by omega)]
    exact hg

/-- A normalised local bank record used as concrete data. -/
def qLocalV1 : Question :=
  { id := 1, question := "q", type := "objective", version := 1, expectedAnswer := "A" }

/-- A newer remote copy of the same question. -/
def qRemoteV2 : Question :=
  { id := 1, question := "q", type := "objective", version := 2, expectedAnswer := "B" }

theorem sync_last_writer_wins_witness :
    storeGet (Question.sync [qLocalV1] [qRemoteV2]).1 1 =
      some (Question.fromJSON qRemoteV2) ∧
    (Question.fromJSON qRemoteV2).version = 2 :=
  (sync_last_writer_wins [qLocalV1] [qRemoteV2] 1 qRemoteV2
    (by decide) (by decide)).1 (by decide)

-- Evaluation engine ---------------------------------------------------------

/-- Model of `String.prototype.toLowerCase` (ASCII range, which covers
the data of this app). -/
def jsToLower (s : String) : String := ⟨s.data.map Char.toLower⟩

/-- Model of `String.prototype.trim`: strips leading and trailing
whitespace. -/
def jsTrim (s : String) : String :=
  ⟨((s.data.dropWhile Char.isWhitespace).reverse.dropWhile Char.isWhitespace).reverse⟩

/-- Helper for `strIncludes`: substring test on character lists. -/
def subAux : List Char → List Char → Bool
  | n, [] => n.isEmpty
  | n, c :: rest => n.isPrefixOf (c :: rest) || subAux n rest

/-- Model of `String.prototype.includes`. -/
def strIncludes (hay needle : String) : Bool := subAux needle.data hay.data

/-- One stored answer record, the fields of the `UserAnswer` constructor
(`src/js/UserAnswer.js`). -/
structure UserAnswer where
  questionId : Nat
  answer : String
  isCorrect : Bool
  grade : Option Rat := none
  nextHint : Option String := none
  fullEvaluation : Option String := none
  confidenceScore : Option Rat := none
  submittedAt : String := ""
  deriving Repr, DecidableEq

/-- The object produced by the evaluation paths of `checkAnswer`.  A JS
field that a path leaves undefined is `none`; the bare boolean `false`
returned by the length-reject path of the local heuristic is modelled as
the record whose every read-out field is the JS-falsy default. -/
structure EvalResult where
  isCorrect : Bool
  grade : Option Rat := none
  nextHint : Option String := none
  fullEvaluation : Option String := none
  confidenceScore : Option Rat := none
  deriving Repr, DecidableEq

/-- The JSON body a successful remote evaluation call yields. -/
structure RemoteEval where
  isCorrect : Bool
  grade : Option Rat := none
  nextHint : Option String := none
  fullEvaluation : Option String := none
  deriving Repr, DecidableEq

/-- The external effects of one `submitAnswer` call: the outcome of the
remote evaluation fetch (`none` = non-ok response or transport failure),
whether the IndexedDB write succeeds, and the clock reading used for
`submittedAt`. -/
structure Env where
  remoteEval : Option RemoteEval := none
  saveOk : Bool := true
  submittedAt : String := ""
  deriving Repr, DecidableEq

/-- `Quiz.localEvaluateSubjectiveAnswer(question, userAnswer)`. -/
def localEvaluateSubjectiveAnswer (question : Question) (userAnswer : String) :
    EvalResult :=
  let keywords := question.keywords
  let minKeywords := if question.minKeywords = 0 then 1 else question.minKeywords
  -- maxLength = question.maxLength || Infinity: a zero (absent) maxLength
  -- disables the length check, so the check runs only when it is nonzero
  if question.maxLength ≠ 0 ∧ question.maxLength < userAnswer.length then
    -- the source returns the bare boolean `false` on this path
    { isCorrect := false }
  else
    let matchedKeywords := keywords.filter fun keyword =>
      strIncludes (jsToLower userAnswer) (jsToLower keyword)
    { isCorrect := decide (minKeywords ≤ matchedKeywords.length),
      confidenceScore :=
        some ((matchedKeywords.length : Rat) / (2 * (keywords.length : Rat))) }

/-- `Quiz.evaluateSubjectiveAnswer`: the remote API result when the call
succeeds (its object literal carries no `confidenceScore`), otherwise the
local fallback. -/
def evaluateSubjectiveAnswer (env : Env) (question : Question) (userAnswer : String) :
    EvalResult :=
  match env.remoteEval with
  | some result =>
    { isCorrect := result.isCorrect, grade := result.grade,
      nextHint := result.nextHint, fullEvaluation := result.fullEvaluation }
  | none => localEvaluateSubjectiveAnswer question userAnswer

/-- `Quiz.checkAnswer(question, userAnswerText)`. -/
def checkAnswer (env : Env) (question : Question) (userAnswerText : String) :
    EvalResult :=
  if question.type = "objective" then
    { isCorrect := jsToLower (jsTrim userAnswerText) == jsToLower question.expectedAnswer,
      confidenceScore := some 1 }
  else if question.type = "subjective" then
    evaluateSubjectiveAnswer env question userAnswerText
  else
    { isCorrect := false, confidenceScore := some 0 }

-- C2 -----------------------------------------------------------------------

/-- C2: objective grading compares the trimmed, lowercased answer with
the lowercased `expectedAnswer`; it succeeds exactly on a case-insensitive
match after trimming, and the confidence score is the constant 1. -/
theorem checkAnswer_objective (env : Env) (q : Question) (text : String)
    (h : q.type = "objective") :
    ((checkAnswer env q text).isCorrect = true ↔
      jsToLower (jsTrim text) = jsToLower q.expectedAnswer) ∧
    (checkAnswer env q text).confidenceScore = some 1 := by
  simp [checkAnswer, h]

/-- The scenario of the claim: `expectedAnswer` "WHERE". -/
def qWhere : Question :=
  { id := 1, type := "objective", expectedAnswer := "WHERE" }

theorem checkAnswer_objective_witness :
    (checkAnswer {} qWhere "where").isCorrect = true ∧
    (checkAnswer {} qWhere "where").confidenceScore = some 1 :=
  ⟨((checkAnswer_objective {} qWhere "where" rfl).1).mpr (by decide),
   (checkAnswer_objective {} qWhere "where" rfl).2⟩

-- C3 -----------------------------------------------------------------------

/-- A subjective question whose `maxLength` field is absent (the
constructor stores `0`), as the claim quantifies over every subjective
question. -/
def qSubjNoMax : Question :=
  { id := 7, type := "subjective", keywords := ["a"], minKeywords := 1, maxLength := 0 }

/-- C3 counterexample: the claim says an answer longer than `maxLength`
is always rejected, but `maxLength || Infinity` disables the check when
the stored value is 0, so this answer of length 1 > 0 = `maxLength` is
accepted. -/
theorem localEvaluate_maxLength_zero_cex :
    qSubjNoMax.maxLength < "a".length ∧
    (localEvaluateSubjectiveAnswer qSubjNoMax "a").isCorrect = true := by
  constructor
  · decide
  · decide

/-- C3 amended: for a subjective question whose `minKeywords` and
`maxLength` are set (nonzero, so the `|| 1` and `|| Infinity` fallbacks
are inert) and whose keyword list is nonempty: an answer longer than
`maxLength` is rejected regardless of keyword matches; otherwise the
answer is accepted iff at least `minKeywords` keywords occur in it
case-insensitively, with confidence = matched / (2 × total). -/
theorem localEvaluate_spec (q : Question) (a : String)
    (hmin : 1 ≤ q.minKeywords) (hmax : 1 ≤ q.maxLength) (hkw : q.keywords ≠ []) :
    (q.maxLength < a.length →
      (localEvaluateSubjectiveAnswer q a).isCorrect = false) ∧
    (¬ q.maxLength < a.length →
      ((localEvaluateSubjectiveAnswer q a).isCorrect = true ↔
        q.minKeywords ≤
          q.keywords.countP (fun kw => strIncludes (jsToLower a) (jsToLower kw))) ∧
      (localEvaluateSubjectiveAnswer q a).confidenceScore =
        some (((q.keywords.countP
            (fun kw => strIncludes (jsToLower a) (jsToLower kw)) : Rat)) /
          (2 * (q.keywords.length : Rat)))) := by
  have hne : q.maxLength ≠ 0 := by omega
  have hmne : ¬ q.minKeywords = 0 := by omega
  constructor
  · intro hlen
    simp [localEvaluateSubjectiveAnswer, hne, hlen]
  · intro hlen
    unfold localEvaluateSubjectiveAnswer
    rw [if_neg (by exact fun hc => hlen hc.2)]
    rw [if_neg hmne]
    refine ⟨by simp [List.countP_eq_length_filter], ?_⟩
    simp [List.countP_eq_length_filter]

/-- The scenario from the spec: seven keywords, `minKeywords` 6,
`maxLength` 500. -/
def qSubj7 : Question :=
  { id := 6, type := "subjective",
    keywords := ["select", "avg", "from", "group by", "department", "having", "count"],
    minKeywords := 6, maxLength := 500 }

/-- An answer matching exactly five of the seven keywords. -/
def ans5 : String := "select avg salary from employees group by department"

theorem localEvaluate_spec_witness :
    ((localEvaluateSubjectiveAnswer qSubj7 ans5).isCorrect = true ↔
      qSubj7.minKeywords ≤
        qSubj7.keywords.countP (fun kw => strIncludes (jsToLower ans5) (jsToLower kw))) ∧
    (localEvaluateSubjectiveAnswer qSubj7 ans5).isCorrect = false := by
  have h := (localEvaluate_spec qSubj7 ans5 (by decide) (by decide)
    (by decide)).2 (by decide)
  refine ⟨h.1, ?_⟩
  have hc : ¬ qSubj7.minKeywords ≤
      qSubj7.keywords.countP (fun kw => strIncludes (jsToLower ans5) (jsToLower kw)) := by
    decide
  cases hb : (localEvaluateSubjectiveAnswer qSubj7 ans5).isCorrect with
  | false => rfl
  | true => exact absurd (h.1.mp hb) hc

-- Quiz session state --------------------------------------------------------

/-- The in-memory `Map` from question id to the ordered answer history,
and equally the `userAnswers` object store, whose records group the
history per question under the `questionId` key. -/
abbrev AnswerMap := List (Nat × List UserAnswer)

/-- `Map.get` / `Storage.getById` on an answer collection. -/
def mapGet : AnswerMap → Nat → Option (List UserAnswer)
  | [], _ => none
  | (k, vs) :: rest, i => if k = i then some vs else mapGet rest i

/-- Appends one answer to the history of its question: the
`if (!has) set(id, [])` + `push` sequence of `Quiz.submitAnswer` on the
in-memory `Map`, and equally the read-modify-write of
`UserAnswer.save` (read the record or the fresh empty history, push,
put the whole record back). -/
def mapPush : AnswerMap → Nat → UserAnswer → AnswerMap
  | [], k, v => [(k, [v])]
  | (k', vs) :: rest, k, v =>
    if k' = k then (k', vs ++ [v]) :: rest
    else (k', vs) :: mapPush rest k v

/-- `UserAnswer.save()` against the answers object store. -/
def UserAnswer.save (store : AnswerMap) (ua : UserAnswer) : AnswerMap :=
  mapPush store ua.questionId ua

/-- The in-memory fields of the `Quiz` instance. -/
structure QuizState where
  questions : List Question
  userAnswers : AnswerMap
  currentQuestionIndex : Nat
  hintCount : Nat
  isCompleted : Bool
  deriving Repr, DecidableEq

/-- A `Quiz` instance together with the durable state it reads and
writes: the two object stores and the `hintCount` localStorage slot. -/
structure Sys where
  quiz : QuizState
  questionsStore : List Question
  answersStore : AnswerMap
  hintCountLS : Nat
  deriving Repr, DecidableEq

/-- `Quiz.getCurrentQuestion()`. -/
def getCurrentQuestion (qz : QuizState) : Option Question :=
  qz.questions.get? qz.currentQuestionIndex

/-- `Quiz.getLatestUserAnswer(questionId)`. -/
def getLatestUserAnswer (qz : QuizState) (questionId : Nat) : Option UserAnswer :=
  match mapGet qz.userAnswers questionId with
  | some answers => if 0 < answers.length then answers.getLast? else none
  | none => none

/-- `Quiz.hasNextQuestion()`: `currentQuestionIndex < questions.length - 1`
over JS numbers, hence the integer reading. -/
def hasNextQuestion (qz : QuizState) : Bool :=
  decide ((qz.currentQuestionIndex : Int) < (qz.questions.length : Int) - 1)

/-- `Quiz.moveToNextQuestion()`: returns (whether it moved, new state). -/
def moveToNextQuestion (qz : QuizState) : Bool × QuizState :=
  if hasNextQuestion qz then
    (true, { qz with currentQuestionIndex := qz.currentQuestionIndex + 1 })
  else
    (false, qz)

/-- The question resolution of `Quiz.submitAnswer`: the explicit-id
branch is taken only when `questionId` is truthy (supplied and nonzero),
otherwise the cursor question is used. -/
def resolveQuestion (qz : QuizState) (questionId : Option Nat) : Option Question :=
  match questionId with
  | some i => if i ≠ 0 then qz.questions.find? (fun q => q.id == i) else getCurrentQuestion qz
  | none => getCurrentQuestion qz

/-- `Quiz.submitAnswer(userAnswerText, questionId)`: resolves the target
question (throwing when it does not resolve), evaluates, pushes the new
`UserAnswer` onto the in-memory map, then tries to persist it; a failed
persist is caught and logged, leaving only the in-memory copy. -/
def submitAnswer (env : Env) (s : Sys) (userAnswerText : String)
    (questionId : Option Nat) : Except String (Sys × EvalResult) :=
  match resolveQuestion s.quiz questionId with
  | none => .error "Question not found"
  | some question =>
    let r := checkAnswer env question userAnswerText
    let newAnswer : UserAnswer :=
      { questionId := question.id, answer := userAnswerText,
        isCorrect := r.isCorrect, grade := r.grade, nextHint := r.nextHint,
        fullEvaluation := r.fullEvaluation, confidenceScore := r.confidenceScore,
        submittedAt := env.submittedAt }
    let quiz' := { s.quiz with userAnswers := mapPush s.quiz.userAnswers question.id newAnswer }
    let answersStore' :=
      if env.saveOk then UserAnswer.save s.answersStore newAnswer else s.answersStore
    .ok ({ s with quiz := quiz', answersStore := answersStore' }, r)

/-- `Quiz.restart()`: `UserAnswer.clearAll()`, then the in-memory resets
and the `hintCount` write-back. -/
def restart (s : Sys) : Sys :=
  { s with
    answersStore := [],
    quiz := { s.quiz with
      userAnswers := [], currentQuestionIndex := 0, hintCount := 0, isCompleted := false },
    hintCountLS := 0 }

-- Map lemmas ----------------------------------------------------------------

theorem mapGet_mapPush_self (m : AnswerMap) (k : Nat) (v : UserAnswer) :
    mapGet (mapPush m k v) k = some ((mapGet m k).getD [] ++ [v]) := by
  induction m with
  | nil => simp [mapGet, mapPush]
  | cons p rest ih =>
    obtain ⟨k', vs⟩ := p
    by_cases h : k' = k
    · simp [mapGet, mapPush, h]
    · simp [mapGet, mapPush, h, ih]

theorem mapGet_mapPush_ne (m : AnswerMap) (k i : Nat) (v : UserAnswer)
    (h : k ≠ i) :
    mapGet (mapPush m k v) i = mapGet m i := by
  induction m with
  | nil => simp [mapGet, mapPush, h]
  | cons p rest ih =>
    obtain ⟨k', vs⟩ := p
    by_cases hk : k' = k
    · subst hk
      simp [mapGet, mapPush, h]
    · simp [mapGet, mapPush, hk, ih]

theorem getLatest_after_push (qz : QuizState) (k : Nat) (v : UserAnswer) :
    getLatestUserAnswer { qz with userAnswers := mapPush qz.userAnswers k v } k =
      some v := by
  unfold getLatestUserAnswer
  simp [mapGet_mapPush_self, List.getLast?_concat]

-- C4 -----------------------------------------------------------------------

/-- C4: a successful `submitAnswer` call (with the persistence write
succeeding) grows both the in-memory history and the stored history of
the resolved question by exactly one entry appended at the end, keeping
the existing entries in order, and `getLatestUserAnswer` then returns
exactly that entry. -/
theorem submitAnswer_appends_one (env : Env) (s : Sys) (text : String)
    (qid : Option Nat) (s' : Sys) (r : EvalResult)
    (hok : submitAnswer env s text qid = .ok (s', r))
    (hsave : env.saveOk = true) :
    ∃ q ua, resolveQuestion s.quiz qid = some q ∧
      mapGet s'.quiz.userAnswers q.id =
        some ((mapGet s.quiz.userAnswers q.id).getD [] ++ [ua]) ∧
      mapGet s'.answersStore q.id =
        some ((mapGet s.answersStore q.id).getD [] ++ [ua]) ∧
      getLatestUserAnswer s'.quiz q.id = some ua := by
  unfold submitAnswer at hok
  cases hq : resolveQuestion s.quiz qid with
  | none => rw [hq] at hok; exact absurd hok (by simp)
  | some q =>
    rw [hq] at hok
    simp only [Except.ok.injEq, Prod.mk.injEq] at hok
    obtain ⟨hs, hr⟩ := hok
    refine ⟨q,
      { questionId := q.id, answer := text,
        isCorrect := (checkAnswer env q text).isCorrect,
        grade := (checkAnswer env q text).grade,
        nextHint := (checkAnswer env q text).nextHint,
        fullEvaluation := (checkAnswer env q text).fullEvaluation,
        confidenceScore := (checkAnswer env q text).confidenceScore,
        submittedAt := env.submittedAt }, rfl, ?_, ?_, ?_⟩
    · rw [← hs]
      exact mapGet_mapPush_self _ _ _
    · rw [← hs]
      simp only [hsave, if_pos]
      exact mapGet_mapPush_self _ _ _
    · rw [← hs]
      exact getLatest_after_push _ _ _

/-- A one-question session with nothing answered, used as concrete
data. -/
def sOne : Sys :=
  { quiz := { questions := [qWhere], userAnswers := [], currentQuestionIndex := 0,
              hintCount := 0, isCompleted := false },
    questionsStore := [qWhere], answersStore := [], hintCountLS := 0 }

/-- The answer record produced by submitting "where" to `sOne`. -/
def uaWhere : UserAnswer :=
  { questionId := 1, answer := "where", isCorrect := true, confidenceScore := some 1 }

/-- `sOne` after that submission. -/
def sOneAfter : Sys :=
  { quiz := { questions := [qWhere], userAnswers := [(1, [uaWhere])],
              currentQuestionIndex := 0, hintCount := 0, isCompleted := false },
    questionsStore := [qWhere], answersStore := [(1, [uaWhere])], hintCountLS := 0 }

theorem submitAnswer_appends_one_witness :
    ∃ q ua, resolveQuestion sOne.quiz none = some q ∧
      mapGet sOneAfter.quiz.userAnswers q.id =
        some ((mapGet sOne.quiz.userAnswers q.id).getD [] ++ [ua]) ∧
      mapGet sOneAfter.answersStore q.id =
        some ((mapGet sOne.answersStore q.id).getD [] ++ [ua]) ∧
      getLatestUserAnswer sOneAfter.quiz q.id = some ua :=
  submitAnswer_appends_one {} sOne "where" none sOneAfter
    { isCorrect := true, confidenceScore := some 1 } rfl rfl

-- C7 -----------------------------------------------------------------------

/-- C7: `restart()` empties the persisted answer store and the in-memory
answer map, resets the cursor, the hint counter (in memory and in
localStorage) and the completion flag, and leaves the question bank —
both the persisted questions collection and the in-memory question
list — untouched. -/
theorem restart_spec (s : Sys) :
    (restart s).quiz.userAnswers = [] ∧
    (restart s).quiz.currentQuestionIndex = 0 ∧
    (restart s).quiz.hintCount = 0 ∧
    (restart s).quiz.isCompleted = false ∧
    (restart s).answersStore = [] ∧
    (restart s).hintCountLS = 0 ∧
    (restart s).quiz.questions = s.quiz.questions ∧
    (restart s).questionsStore = s.questionsStore := by
  simp [restart]

-- C9 -----------------------------------------------------------------------

/-- C9: `moveToNextQuestion()` moves the cursor forward by exactly one
and reports `true` precisely when the cursor is strictly below the last
question index; otherwise it reports `false` and the state is
unchanged. -/
theorem moveToNextQuestion_spec (qz : QuizState) :
    ((qz.currentQuestionIndex : Int) < (qz.questions.length : Int) - 1 →
      moveToNextQuestion qz =
        (true, { qz with currentQuestionIndex := qz.currentQuestionIndex + 1 })) ∧
    (¬ (qz.currentQuestionIndex : Int) < (qz.questions.length : Int) - 1 →
      moveToNextQuestion qz = (false, qz)) := by
  constructor <;> intro h <;> simp [moveToNextQuestion, hasNextQuestion, h]

/-- A two-question session with the cursor on the last index. -/
def qzTwoLast : QuizState :=
  { questions := [qWhere, qSubj7], userAnswers := [],
    currentQuestionIndex := 1, hintCount := 0, isCompleted := false }

theorem moveToNextQuestion_witness :
    moveToNextQuestion qzTwoLast = (false, qzTwoLast) :=
  (moveToNextQuestion_spec qzTwoLast).2 (by decide)

-- C10 ----------------------------------------------------------------------

/-- C10: a falsy explicit question id (`0` supplied, like an omitted id)
makes `submitAnswer` resolve against the cursor question, because the
explicit-id branch is guarded by JS truthiness.  While the cursor points
at a question, the call therefore succeeds — it grades against the
cursor question and records the answer under that question's id — even
when no question with id 0 exists. -/
theorem submitAnswer_falsy_id (env : Env) (s : Sys) (text : String) (q : Question)
    (h : getCurrentQuestion s.quiz = some q) :
    submitAnswer env s text (some 0) = submitAnswer env s text none ∧
    ∃ p, submitAnswer env s text (some 0) = .ok p ∧
      p.2 = checkAnswer env q text ∧
      ∃ ua, getLatestUserAnswer p.1.quiz q.id = some ua ∧
        ua.questionId = q.id ∧ ua.answer = text := by
  have hres : resolveQuestion s.quiz (some 0) = some q := by
    simp [resolveQuestion, h]
  constructor
  · simp [submitAnswer, resolveQuestion]
  · simp only [submitAnswer, hres]
    refine ⟨_, rfl, rfl, ?_⟩
    exact ⟨_, getLatest_after_push _ _ _, rfl, rfl⟩

theorem submitAnswer_falsy_id_witness :
    submitAnswer {} sOne "where" (some 0) = submitAnswer {} sOne "where" none ∧
    ∃ p, submitAnswer {} sOne "where" (some 0) = .ok p ∧
      p.2 = checkAnswer {} qWhere "where" ∧
      ∃ ua, getLatestUserAnswer p.1.quiz qWhere.id = some ua ∧
        ua.questionId = qWhere.id ∧ ua.answer = "where" :=
  submitAnswer_falsy_id {} sOne "where" qWhere rfl

-- C5 -----------------------------------------------------------------------

/-- Model of `Math.round`: round half toward positive infinity. -/
def jsRound (x : Rat) : Int := ⌊x + 1 / 2⌋

/-- The object returned by `Quiz.getQuizProgress()`. -/
structure QuizProgress where
  currentQuestionIndex : Nat
  totalQuestions : Nat
  answeredQuestions : Nat
  correctAnswers : Nat
  totalScore : Rat
  maxPossibleScore : Nat
  overallScore : Int
  hintCount : Nat
  deriving Repr, DecidableEq

/-- The `forEach` accumulation of `getQuizProgress`, over
(totalScore, maxPossibleScore, correctAnswers). -/
def scoreLoop (qz : QuizState) :
    List Question → Rat × Nat × Nat → Rat × Nat × Nat
  | [], acc => acc
  | question :: rest, (totalScore, maxPossibleScore, correctAnswers) =>
    match getLatestUserAnswer qz question.id with
    | some latestUserAnswer =>
      let grade : Rat :=
        match latestUserAnswer.grade with
        | some g => g
        | none => if latestUserAnswer.isCorrect then 10 else 0
      let questionScore := max 0 (grade / 10)
      scoreLoop qz rest (totalScore + questionScore, maxPossibleScore + 1,
        correctAnswers + (if latestUserAnswer.isCorrect then 1 else 0))
    | none => scoreLoop qz rest (totalScore, maxPossibleScore + 1, correctAnswers)

/-- `Quiz.getQuizProgress()`. -/
def getQuizProgress (qz : QuizState) : QuizProgress :=
  let acc := scoreLoop qz qz.questions (0, 0, 0)
  let totalScore := acc.1
  let maxPossibleScore := acc.2.1
  let correctAnswers := acc.2.2
  let hintPenalty : Rat :=
    min ((correctAnswers : Rat) * (2 / 10)) ((1 / 10) * (qz.hintCount : Rat))
  let overallScore : Int :=
    if 0 < maxPossibleScore then
      jsRound (((totalScore - hintPenalty) / (maxPossibleScore : Rat)) * 100)
    else 0
  { currentQuestionIndex := qz.currentQuestionIndex,
    totalQuestions := qz.questions.length,
    answeredQuestions := qz.userAnswers.length,
    correctAnswers := correctAnswers,
    totalScore := totalScore,
    maxPossibleScore := maxPossibleScore,
    overallScore := overallScore,
    hintCount := qz.hintCount }

/-- Rendering of the claimed formula: the grade of a latest answer (its
`grade` when that is a number, else 10 × isCorrect). -/
def specGrade (a : UserAnswer) : Rat :=
  match a.grade with
  | some g => g
  | none => if a.isCorrect then 10 else 0

/-- Rendering of the claimed formula: the score contribution grade/10 of
one question (0 when unanswered). -/
def specQuestionScore (qz : QuizState) (q : Question) : Rat :=
  match getLatestUserAnswer qz q.id with
  | none => 0
  | some a => specGrade a / 10

/-- Rendering of the claimed formula: whether the latest answer of a
question is correct. -/
def specLatestCorrect (qz : QuizState) (q : Question) : Bool :=
  ((getLatestUserAnswer qz q.id).map (fun a => a.isCorrect)).getD false

/-- All grades stored among latest answers of the given questions are
nonnegative (a decidable rendering of the data-model contract that
grades lie in 0..10). -/
def gradesNonneg (qz : QuizState) (l : List Question) : Bool :=
  l.all fun q =>
    (getLatestUserAnswer qz q.id).all fun a =>
      a.grade.all fun g => decide (0 ≤ g)

theorem scoreLoop_spec (qz : QuizState) (l : List Question)
    (ts : Rat) (mps ca : Nat)
    (hg : gradesNonneg qz l = true) :
    scoreLoop qz l (ts, mps, ca) =
      (ts + (l.map (specQuestionScore qz)).sum, mps + l.length,
       ca + l.countP (specLatestCorrect qz)) := by
  induction l generalizing ts mps ca with
  | nil => simp [scoreLoop]
  | cons q rest ih =>
    rw [gradesNonneg, List.all_cons, Bool.and_eq_true] at hg
    obtain ⟨hq, hrest⟩ := hg
    cases hl : getLatestUserAnswer qz q.id with
    | none =>
      simp only [scoreLoop, hl, ih _ _ _ hrest]
      refine congrArg₂ _ ?_ (congrArg₂ _ ?_ ?_)
      · simp [specQuestionScore, hl]
      · simp; omega
      · simp [List.countP_cons, specLatestCorrect, hl]
    | some a =>
      have hge : (0 : Rat) ≤ specGrade a := by
        unfold specGrade
        cases hga : a.grade with
        | none => dsimp; split <;> norm_num
        | some g =>
          rw [hl] at hq
          simp only [Option.all_some, hga] at hq
          simpa using hq
      simp only [scoreLoop, hl, ih _ _ _ hrest]
      refine congrArg₂ _ ?_ (congrArg₂ _ ?_ ?_)
      · have hmax : max (0 : Rat)
            ((match a.grade with
              | some g => g
              | none => if a.isCorrect then (10 : Rat) else 0) / 10) =
            specGrade a / 10 := by
          rw [show (match a.grade with
              | some g => g
              | none => if a.isCorrect then (10 : Rat) else 0) = specGrade a from rfl]
          exact max_eq_right (by positivity)
        rw [hmax]
        simp only [List.map_cons, List.sum_cons, specQuestionScore, hl]
        ring
      · simp; omega
      · simp only [List.countP_cons, specLatestCorrect, hl]
        by_cases hc : a.isCorrect = true <;> simp [hc] <;> omega

/-- C5: `getQuizProgress()` derives: answeredCount = size of the answer
map; correctCount = number of questions whose latest answer is correct;
totalScore = sum over answered questions of grade/10 (the stored grade
when it is a number, else 10 × isCorrect); maxPossibleScore = the number
of questions; and overallScore = round(100 × (totalScore − hintPenalty)
/ maxPossibleScore) with hintPenalty = min(correctCount × 0.2,
hintCount × 0.1).  The hypothesis `gradesNonneg` is the data-model
contract that stored grades lie in 0..10 (the source additionally clamps
each question score at 0, which is inert for nonnegative grades). -/
theorem getQuizProgress_spec (qz : QuizState)
    (hg : gradesNonneg qz qz.questions = true) :
    (getQuizProgress qz).answeredQuestions = qz.userAnswers.length ∧
    (getQuizProgress qz).correctAnswers = qz.questions.countP (specLatestCorrect qz) ∧
    (getQuizProgress qz).totalScore = (qz.questions.map (specQuestionScore qz)).sum ∧
    (getQuizProgress qz).maxPossibleScore = qz.questions.length ∧
    (getQuizProgress qz).overallScore =
      jsRound (100 * ((qz.questions.map (specQuestionScore qz)).sum -
          min ((qz.questions.countP (specLatestCorrect qz) : Rat) * (2 / 10))
              ((qz.hintCount : Rat) * (1 / 10))) /
        (qz.questions.length : Rat)) := by
  have hs := scoreLoop_spec qz qz.questions 0 0 0 hg
  simp only [Prod.mk_zero_zero, zero_add] at hs
  have h1 : (getQuizProgress qz).correctAnswers =
      qz.questions.countP (specLatestCorrect qz) := by
    simp [getQuizProgress, hs]
  have h2 : (getQuizProgress qz).totalScore =
      (qz.questions.map (specQuestionScore qz)).sum := by
    simp [getQuizProgress, hs]
  have h3 : (getQuizProgress qz).maxPossibleScore = qz.questions.length := by
    simp [getQuizProgress, hs]
  refine ⟨rfl, h1, h2, h3, ?_⟩
  by_cases hlen : 0 < qz.questions.length
  · have hov : (getQuizProgress qz).overallScore =
        jsRound ((((qz.questions.map (specQuestionScore qz)).sum -
            min ((qz.questions.countP (specLatestCorrect qz) : Rat) * (2 / 10))
                ((1 / 10) * (qz.hintCount : Rat))) /
          (qz.questions.length : Rat)) * 100) := by
      simp [getQuizProgress, hs, hlen]
    rw [hov]
    congr 1
    rw [mul_comm ((1 : Rat) / 10) ((qz.hintCount : Rat))]
    ring
  · have hnil : qz.questions = [] := List.length_eq_zero.mp (by omega)
    have hov : (getQuizProgress qz).overallScore = 0 := by
      simp [getQuizProgress, hnil, scoreLoop]
    rw [hov, hnil]
    simp only [List.map_nil, List.sum_nil, List.countP_nil, List.length_nil,
      Nat.cast_zero, zero_mul]
    rw [min_eq_left (by positivity)]
    norm_num [jsRound]

/-- A session with one correct graded-by-default answer out of two
questions and one hint used. -/
def qzProg : QuizState :=
  { questions := [qWhere, qSubj7], userAnswers := [(1, [uaWhere])],
    currentQuestionIndex := 1, hintCount := 1, isCompleted := false }

theorem getQuizProgress_spec_witness :
    (getQuizProgress qzProg).answeredQuestions = qzProg.userAnswers.length ∧
    (getQuizProgress qzProg).correctAnswers =
      qzProg.questions.countP (specLatestCorrect qzProg) ∧
    (getQuizProgress qzProg).totalScore =
      (qzProg.questions.map (specQuestionScore qzProg)).sum ∧
    (getQuizProgress qzProg).maxPossibleScore = qzProg.questions.length ∧
    (getQuizProgress qzProg).overallScore =
      jsRound (100 * ((qzProg.questions.map (specQuestionScore qzProg)).sum -
          min ((qzProg.questions.countP (specLatestCorrect qzProg) : Rat) * (2 / 10))
              ((qzProg.hintCount : Rat) * (1 / 10))) /
        (qzProg.questions.length : Rat)) :=
  getQuizProgress_spec qzProg (by decide)

-- C6 -----------------------------------------------------------------------

/-- One element of the `getAnsweredQuestions()` result: the question
spread together with the answer text and correctness of its latest
answer. -/
structure AnsweredQuestion where
  q : Question
  userAnswer : String
  isCorrect : Bool
  deriving Repr, DecidableEq

/-- Insertion into an id-sorted list, for the `sort((a, b) => a.id - b.id)`
call (question ids are unique, so stability is immaterial). -/
def insertById (a : AnsweredQuestion) : List AnsweredQuestion → List AnsweredQuestion
  | [] => [a]
  | b :: l => if a.q.id < b.q.id then a :: b :: l else b :: insertById a l

/-- Ascending sort by question id. -/
def sortById (l : List AnsweredQuestion) : List AnsweredQuestion :=
  l.foldr insertById []

/-- `Quiz.getAnsweredQuestions()`: the questions having an answer
history, joined with their latest answer, sorted by id. -/
def getAnsweredQuestions (qz : QuizState) : List AnsweredQuestion :=
  sortById
    ((qz.questions.filter fun question =>
        (mapGet qz.userAnswers question.id).isSome).map fun question =>
      let answers := (mapGet qz.userAnswers question.id).getD []
      { q := question,
        userAnswer := (answers.getLast?).elim "" (fun ua => ua.answer),
        isCorrect := (answers.getLast?).elim false (fun ua => ua.isCorrect) })

/-- `Quiz.checkQuizCompletion()`.  On an empty question list the source
would throw reading `.id` of `undefined`; the conjunction is then
modelled as false (the branch is unreachable in the app, which always
ships questions). -/
def checkQuizCompletion (qz : QuizState) : Bool :=
  decide ((qz.questions.length : Int) - 1 ≤ (qz.currentQuestionIndex : Int)) &&
    (match qz.questions.getLast? with
     | some q => (mapGet qz.userAnswers q.id).isSome
     | none => false)

/-- The answer-map hydration of `loadQuestions`: the flattened saved
answers are grouped by question id in order. -/
def hydrateAnswers (saved : List UserAnswer) : AnswerMap :=
  saved.foldl (fun m answer => mapPush m answer.questionId answer) []

/-- The cursor rule at the end of `loadQuestions`: index of the first
question absent from the answer map, or past-the-end when every question
is answered. -/
def loadCursor (questions : List Question) (m : AnswerMap) : Nat :=
  match questions.findIdx? (fun q => (mapGet m q.id).isNone) with
  | some i => i
  | none => questions.length

/-- The state produced by the tail of `loadQuestions`: `questions` is
the list that the fetch/sync (or the cached `getAll` fallback) yielded,
`saved` the persisted flattened answer log. -/
def initBase (questions : List Question) (saved : List UserAnswer) (hintCount : Nat) :
    QuizState :=
  let m := hydrateAnswers saved
  { questions := questions, userAnswers := m,
    currentQuestionIndex := loadCursor questions m,
    hintCount := hintCount, isCompleted := false }

/-- `Quiz.init()` after `loadQuestions`: when any question is answered,
the cursor is overwritten with `answeredQuestions.length - 1` and then
advanced once more when the last answered question (highest id) has a
correct latest answer; finally the completion flag is derived. -/
def initState (questions : List Question) (saved : List UserAnswer) (hintCount : Nat) :
    QuizState :=
  let qz0 := initBase questions saved hintCount
  let answeredQuestions := getAnsweredQuestions qz0
  let qz1 :=
    if 0 < answeredQuestions.length then
      let qzA := { qz0 with currentQuestionIndex := answeredQuestions.length - 1 }
      if (answeredQuestions.getLast?).elim false (fun aq => aq.isCorrect) then
        (moveToNextQuestion qzA).2
      else qzA
    else qz0
  { qz1 with isCompleted := checkQuizCompletion qz1 }

/-- Three questions with ids 1, 2, 3. -/
def q1c : Question := { id := 1, type := "objective", expectedAnswer := "a" }

/-- Second question of the counterexample bank. -/
def q2c : Question := { id := 2, type := "objective", expectedAnswer := "b" }

/-- Third question of the counterexample bank. -/
def q3c : Question := { id := 3, type := "objective", expectedAnswer := "c" }

/-- A persisted wrong answer to question 1. -/
def ua1wrong : UserAnswer := { questionId := 1, answer := "x", isCorrect := false }

/-- C6 counterexample: with questions 1,2,3 and only question 1
answered (incorrectly), the first question absent from the answer map
has index 1, but `init()` leaves the cursor at 0, because it overwrites
the first-unanswered cursor with `answeredQuestions.length - 1`. -/
theorem init_cursor_cex :
    (initState [q1c, q2c, q3c] [ua1wrong] 0).currentQuestionIndex = 0 ∧
    loadCursor [q1c, q2c, q3c] (hydrateAnswers [ua1wrong]) = 1 ∧
    (initState [q1c, q2c, q3c] [ua1wrong] 0).currentQuestionIndex ≠
      loadCursor [q1c, q2c, q3c] (hydrateAnswers [ua1wrong]) := by
  refine ⟨?_, ?_, ?_⟩ <;> decide

/-- C6 amended: after `init()`, the cursor equals the first-unanswered
index only when no question is answered; when k ≥ 1 questions are
answered it equals k − 1, advanced to k when the answered question with
the highest id has a correct latest answer and k − 1 is not yet the last
question index. -/
theorem quizSet_completed_cursor (qz : QuizState) (b : Bool) :
    ({ qz with isCompleted := b } : QuizState).currentQuestionIndex =
      qz.currentQuestionIndex := rfl

theorem quizSet_cursor_cursor (qz : QuizState) (v : Nat) :
    ({ qz with currentQuestionIndex := v } : QuizState).currentQuestionIndex = v := rfl

theorem quizSet_cursor_questions (qz : QuizState) (v : Nat) :
    ({ qz with currentQuestionIndex := v } : QuizState).questions = qz.questions := rfl

theorem initBase_questions (questions : List Question) (saved : List UserAnswer)
    (hc : Nat) : (initBase questions saved hc).questions = questions := rfl

theorem moveToNext_cursor (qz : QuizState) :
    ((moveToNextQuestion qz).2).currentQuestionIndex =
      if hasNextQuestion qz then qz.currentQuestionIndex + 1
      else qz.currentQuestionIndex := by
  unfold moveToNextQuestion
  by_cases h : hasNextQuestion qz <;> simp [h]

/-- C6 amended: after `init()`, the cursor equals the first-unanswered
index only when no question is answered; when k >= 1 questions are
answered it equals k - 1, advanced to k when the answered question with
the highest id has a correct latest answer and k - 1 is not yet the last
question index. -/
theorem init_cursor_spec (questions : List Question) (saved : List UserAnswer)
    (hc : Nat) :
    (initState questions saved hc).currentQuestionIndex =
      (if (getAnsweredQuestions (initBase questions saved hc)).length = 0 then
        loadCursor questions (hydrateAnswers saved)
      else if ((getAnsweredQuestions (initBase questions saved hc)).getLast?).elim
            false (fun aq => aq.isCorrect) ∧
          (getAnsweredQuestions (initBase questions saved hc)).length < questions.length
        then (getAnsweredQuestions (initBase questions saved hc)).length
      else (getAnsweredQuestions (initBase questions saved hc)).length - 1) := by
  simp only [initState]
  rcases Nat.eq_zero_or_pos (getAnsweredQuestions (initBase questions saved hc)).length
    with h0 | hk
  · have hnpos : ¬ 0 < (getAnsweredQuestions (initBase questions saved hc)).length := by
      omega
    rw [if_pos h0, if_neg hnpos]
    rfl
  · have hne0 : ¬ (getAnsweredQuestions (initBase questions saved hc)).length = 0 := by
      omega
    rw [if_neg hne0, if_pos hk]
    by_cases hcor : ((getAnsweredQuestions (initBase questions saved hc)).getLast?).elim
        false (fun aq => aq.isCorrect) = true
    · rw [if_pos hcor]
      simp only [quizSet_completed_cursor, moveToNext_cursor, hasNextQuestion,
        quizSet_cursor_cursor, quizSet_cursor_questions, initBase_questions,
        decide_eq_true_eq]
      by_cases hlt :
          (getAnsweredQuestions (initBase questions saved hc)).length < questions.length
      · rw [if_pos (show
            (((getAnsweredQuestions (initBase questions saved hc)).length - 1 : Nat) : Int)
              < (questions.length : Int) - 1 by omega),
          if_pos (And.intro hcor hlt)]
        omega
      · rw [if_neg (show ¬
            (((getAnsweredQuestions (initBase questions saved hc)).length - 1 : Nat) : Int)
              < (questions.length : Int) - 1 by omega),
          if_neg (fun hand => hlt hand.2)]
    · rw [if_neg hcor, if_neg (fun hand => hcor hand.1)]

-- C8 -----------------------------------------------------------------------

/-- C8 counterexample: with a truthy explicit id that matches no
question, `submitAnswer` throws "question not found" even though the
cursor points at a valid question — refuting "fails exactly when neither
the id resolves nor the cursor points at a question". -/
theorem submitAnswer_notfound_cex :
    submitAnswer {} sOne "x" (some 2) = .error "Question not found" ∧
    (getCurrentQuestion sOne.quiz).isSome = true := by
  exact ⟨rfl, rfl⟩

/-- C8 amended: `submitAnswer` fails with "question not found" exactly
when the resolution of the source fails — with a truthy explicit id,
when no question in the list carries that id (the cursor is not
consulted); otherwise when the cursor is out of range.  The throw
happens before any mutation, so the failing call leaves every part of
the state untouched (the model returns no new state).  On success the
evaluated answer is appended to the in-memory map and, only when the
storage write succeeds, to the persisted log; a failed write is caught,
the in-memory entry and the returned evaluation are unaffected by it. -/
theorem submitAnswer_spec (env : Env) (s : Sys) (text : String) (qid : Option Nat) :
    (resolveQuestion s.quiz qid = none ↔
      submitAnswer env s text qid = .error "Question not found") ∧
    (∀ q, resolveQuestion s.quiz qid = some q →
      ∃ ua s', submitAnswer env s text qid = .ok (s', checkAnswer env q text) ∧
        s'.quiz.userAnswers = mapPush s.quiz.userAnswers q.id ua ∧
        getLatestUserAnswer s'.quiz q.id = some ua ∧
        ua.questionId = q.id ∧ ua.answer = text ∧
        s'.answersStore =
          (if env.saveOk then UserAnswer.save s.answersStore ua else s.answersStore) ∧
        s'.quiz.questions = s.quiz.questions ∧
        s'.quiz.currentQuestionIndex = s.quiz.currentQuestionIndex ∧
        s'.quiz.hintCount = s.quiz.hintCount ∧
        s'.questionsStore = s.questionsStore ∧
        s'.hintCountLS = s.hintCountLS) := by
  constructor
  · cases hq : resolveQuestion s.quiz qid with
    | none => simp [submitAnswer, hq]
    | some q => simp [submitAnswer, hq]
  · intro q hq
    set ua : UserAnswer :=
      { questionId := q.id, answer := text,
        isCorrect := (checkAnswer env q text).isCorrect,
        grade := (checkAnswer env q text).grade,
        nextHint := (checkAnswer env q text).nextHint,
        fullEvaluation := (checkAnswer env q text).fullEvaluation,
        confidenceScore := (checkAnswer env q text).confidenceScore,
        submittedAt := env.submittedAt } with hua
    refine ⟨ua,
      { s with
        quiz := { s.quiz with userAnswers := mapPush s.quiz.userAnswers q.id ua },
        answersStore :=
          if env.saveOk then UserAnswer.save s.answersStore ua else s.answersStore },
      ?_, rfl, ?_, rfl, rfl, rfl, rfl, rfl, rfl, rfl, rfl⟩
    · simp only [submitAnswer, hq, hua]
    · exact getLatest_after_push _ _ _

/-- An environment whose storage write fails. -/
def envNoSave : Env := { saveOk := false }

theorem submitAnswer_spec_witness :
    ∃ ua s', submitAnswer envNoSave sOne "zzz" none =
        .ok (s', checkAnswer envNoSave qWhere "zzz") ∧
      s'.quiz.userAnswers = mapPush sOne.quiz.userAnswers qWhere.id ua ∧
      getLatestUserAnswer s'.quiz qWhere.id = some ua ∧
      ua.questionId = qWhere.id ∧ ua.answer = "zzz" ∧
      s'.answersStore =
        (if envNoSave.saveOk then UserAnswer.save sOne.answersStore ua
         else sOne.answersStore) ∧
      s'.quiz.questions = sOne.quiz.questions ∧
      s'.quiz.currentQuestionIndex = sOne.quiz.currentQuestionIndex ∧
      s'.quiz.hintCount = sOne.quiz.hintCount ∧
      s'.questionsStore = sOne.questionsStore ∧
      s'.hintCountLS = sOne.hintCountLS :=
  (submitAnswer_spec envNoSave sOne "zzz" none).2 qWhere rfl
